import Mathlib

/-!
Verification of the bulkers crate/manifest/dispatch engine against its
natural-language specification.  The Rust sources are shallowly embedded as
executable Lean definitions: pure string manipulation becomes functions on
`String`/`List Char`, filesystem and registry effects become explicit state
passing over association lists, recursion that is unbounded in Rust is fueled
and the fuel proved adequate where termination holds.
-/

deriving instance DecidableEq for Except

namespace Bulkers

/-- Single-quote character (ASCII 39), used in embedded error messages and in
the shell splitter. -/
def squote : Char := Char.ofNat 39

/-- Single-quote as a one-character string. -/
def sq : String := String.mk [squote]

-- ── Reference & manifest data model (src/manifest.rs) ────────────────────────

/-- Parsed registry path components (manifest.rs `CrateVars`); `nspace` embeds
the Rust field `namespace`, which is a Lean keyword. -/
structure CrateVars where
  nspace : String
  crate_name : String
  tag : String
deriving DecidableEq, Repr

/-- Display as "namespace/crate_name:tag" (manifest.rs `display_name`). -/
def CrateVars.display_name (cv : CrateVars) : String :=
  cv.nspace ++ "/" ++ cv.crate_name ++ ":" ++ cv.tag

/-- A single command entry in the manifest (manifest.rs `PackageCommand`). -/
structure PackageCommand where
  command : String
  docker_image : String
  docker_command : Option String := none
  docker_args : Option String := none
  dockerargs : Option String := none
  apptainer_args : Option String := none
  apptainer_command : Option String := none
  volumes : List String := []
  envvars : List String := []
  no_user : Bool := false
  no_network : Bool := false
  no_default_volumes : Bool := false
  workdir : Option String := none
deriving DecidableEq, Repr

/-- Inner manifest data (manifest.rs `ManifestInner`). -/
structure ManifestInner where
  name : Option String := none
  version : Option String := none
  commands : List PackageCommand := []
  host_commands : List String := []
  imports : List String := []
deriving DecidableEq, Repr

/-- Manifest file structure, top level (manifest.rs `Manifest`). -/
structure Manifest where
  manifest : ManifestInner
deriving DecidableEq, Repr

-- ── Registry path parsing (src/manifest.rs) ──────────────────────────────────

/-- Split a character list at the LAST occurrence of `c` (embeds `str::rfind`
followed by slicing): returns the characters before and after that occurrence. -/
def rsplitOnce (c : Char) : List Char → Option (List Char × List Char)
  | [] => none
  | x :: xs =>
    match rsplitOnce c xs with
    | some p => some (x :: p.1, p.2)
    | none => if x = c then some ([], xs) else none

/-- Split a character list at the FIRST occurrence of `c` (embeds `str::find`
followed by slicing). -/
def lsplitOnce (c : Char) : List Char → Option (List Char × List Char)
  | [] => none
  | x :: xs =>
    if x = c then some ([], xs)
    else
      match lsplitOnce c xs with
      | some p => some (x :: p.1, p.2)
      | none => none

/-- Whitespace trim on both ends (embeds `str::trim`). -/
def trim_chars (cs : List Char) : List Char :=
  ((cs.dropWhile Char.isWhitespace).reverse.dropWhile Char.isWhitespace).reverse

/-- Characters allowed in a crate path component (manifest.rs
`validate_crate_component`): ASCII alphanumeric, hyphen, underscore, dot. -/
def allowed_component_char (c : Char) : Bool :=
  c.isAlphanum || c = '-' || c = '_' || c = '.'

/-- Validate that a crate path component is nonempty and contains only safe
characters (manifest.rs `validate_crate_component`). -/
def validate_crate_component (s : String) (label : String) : Except String Unit :=
  if s.data.isEmpty then
    .error ("Empty " ++ label ++ " in crate path")
  else if s.data.all allowed_component_char then
    .ok ()
  else
    .error ("Invalid " ++ label ++ " " ++ sq ++ s ++ sq ++
      ": only alphanumeric characters, hyphens, underscores, and dots are allowed")

/-- Parse a registry path string like "namespace/crate:tag" with defaults
namespace = `default_nspace`, tag = "default" (manifest.rs
`parse_registry_path`). -/
def parse_registry_path (path : String) (default_nspace : String) :
    Except String CrateVars :=
  let cs := trim_chars path.data
  let np : List Char × String :=
    match rsplitOnce ':' cs with
    | some p => (p.1, String.mk p.2)
    | none => (cs, "default")
  let nc : String × String :=
    match lsplitOnce '/' np.1 with
    | some p => (String.mk p.1, String.mk p.2)
    | none => (default_nspace, String.mk np.1)
  match validate_crate_component nc.1 "namespace" with
  | .error e => .error e
  | .ok _ =>
  match validate_crate_component nc.2 "crate name" with
  | .error e => .error e
  | .ok _ =>
  match validate_crate_component np.2 "tag" with
  | .error e => .error e
  | .ok _ => .ok ⟨nc.1, nc.2, np.2⟩

/-- Merge a secondary list into a primary list, appending items not already
present, preserving order (manifest.rs `merge_lists`). -/
def merge_lists (primary : List String) (secondary : List String) : List String :=
  secondary.foldl (fun acc item => if acc.contains item then acc else acc ++ [item]) primary

-- ── Environment variable selection (src/shimlink.rs) ─────────────────────────

/-- Env vars managed by Docker that should not be passed from the host
(shimlink.rs `DOCKER_MANAGED_VARS`). -/
def DOCKER_MANAGED_VARS : List String := ["PATH", "HOME", "HOSTNAME"]

/-- Locale vars that should not be forwarded (shimlink.rs `LOCALE_VARS`). -/
def LOCALE_VARS : List String :=
  ["LANG", "LANGUAGE", "LC_ALL", "LC_COLLATE", "LC_CTYPE",
   "LC_MESSAGES", "LC_MONETARY", "LC_NUMERIC", "LC_TIME"]

/-- Collect all host environment variable names, excluding Docker-managed vars,
locale vars and bulker internal vars (shimlink.rs `collect_host_envvars`); the
host environment is a parameter instead of ambient process state. -/
def collect_host_envvars (env : List (String × String)) : List String :=
  (((env.map (fun kv => kv.1)).filter
      (fun k => !DOCKER_MANAGED_VARS.contains k)).filter
      (fun k => !LOCALE_VARS.contains k)).filter
      (fun k => !k.startsWith "BULKER")

/-- Comma-split, trimmed, empties-dropped parsing of the
`BULKER_EXTRA_ENVVARS` extension list (shimlink.rs `shimlink_exec`, strict
branch). -/
def parsed_extra_envvars (e : String) : List String :=
  ((e.splitOn ",").map (fun x => String.mk (trim_chars x.data))).filter
    (fun x => !x.data.isEmpty)

/-- Strict-env allowlist assembly (shimlink.rs `shimlink_exec`, strict branch):
config envvars, merged with the command's declared envvars, merged with the
comma-separated `BULKER_EXTRA_ENVVARS` extension when present.  The host
environment is deliberately not among the inputs: in strict mode nothing else
reaches the container. -/
def strict_envvars (config_envvars : List String) (pkg_envvars : List String)
    (extra : Option String) : List String :=
  let vars := merge_lists config_envvars pkg_envvars
  match extra with
  | some e => merge_lists vars (parsed_extra_envvars e)
  | none => vars

-- ── Shell splitting and TTY flag stripping (src/shimlink.rs) ─────────────────

/-- State of the shell-like splitter (shimlink.rs `shell_split` loop). -/
structure SplitState where
  result : List String
  current : List Char
  in_single_quote : Bool
  in_double_quote : Bool
  escape_next : Bool
deriving Repr

/-- One character step of shimlink.rs `shell_split`. -/
def shell_split_step (s : SplitState) (ch : Char) : SplitState :=
  if s.escape_next then
    { s with current := s.current ++ [ch], escape_next := false }
  else if ch == '\\' && !s.in_single_quote then
    { s with escape_next := true }
  else if ch == squote && !s.in_double_quote then
    { s with in_single_quote := !s.in_single_quote }
  else if ch == '"' && !s.in_single_quote then
    { s with in_double_quote := !s.in_double_quote }
  else if (ch == ' ' || ch == '\t') && !s.in_single_quote && !s.in_double_quote then
    if s.current.isEmpty then s
    else { s with result := s.result ++ [String.mk s.current], current := [] }
  else
    { s with current := s.current ++ [ch] }

/-- Simple shell-like argument splitting, handling quoted strings
(shimlink.rs `shell_split`). -/
def shell_split (s : String) : List String :=
  let st := s.data.foldl shell_split_step ⟨[], [], false, false, false⟩
  if st.current.isEmpty then st.result else st.result ++ [String.mk st.current]

/-- Test that a string starts with the single character `c` (embeds Rust
`str::starts_with(char)` at the character-list level). -/
def starts_with_char (s : String) (c : Char) : Bool :=
  match s.data with
  | [] => false
  | x :: _ => x == c

/-- Test that a string starts with `"--"` (embeds `str::starts_with("--")`). -/
def starts_with_dd (s : String) : Bool :=
  match s.data with
  | x :: y :: _ => x == '-' && y == '-'
  | _ => false

/-- Per-token accumulation step of shimlink.rs `strip_tty_flag`: drop `-t` and
`--tty`, strip the letter t from short flag clusters, keep everything else. -/
def strip_tty_token (acc : List String) (part : String) : List String :=
  if part == "-t" || part == "--tty" then acc
  else if starts_with_char part '-' && !starts_with_dd part && decide (part.data.length > 1) then
    let stripped := String.mk (part.data.filter (fun c => c ≠ 't'))
    if stripped == "-" then acc else acc ++ [stripped]
  else acc ++ [part]

/-- Strip the `-t` / `--tty` flag from a docker_args string
(shimlink.rs `strip_tty_flag`). -/
def strip_tty_flag (args : String) : String :=
  let parts := shell_split args
  let result := parts.foldl strip_tty_token []
  String.intercalate " " result

/-- Decidable test that a single shell-split token carries no tty request:
it is not `-t` or `--tty`, and if it is a short flag cluster it contains no t. -/
def token_has_no_tty (part : String) : Bool :=
  part ≠ "-t" && part ≠ "--tty" &&
    (!(starts_with_char part '-' && !starts_with_dd part && decide (part.data.length > 1)) ||
      !part.data.contains 't')

-- ── Manifest cache write pattern (src/manifest_cache.rs) ─────────────────────

/-- Filesystem operations performed by the manifest cache, as an explicit
trace alphabet. -/
inductive FsOp where
  | createDirAll (path : String)
  | writeFile (path : String) (contents : String)
  | renameFile (src : String) (dst : String)
deriving DecidableEq, Repr

/-- Whether an operation is an atomic-replace rename. -/
def FsOp.isRename : FsOp → Bool
  | .renameFile _ _ => true
  | _ => false

/-- Directory holding one crate's cached manifest,
`<config>/bulker/manifests/<ns>/<name>/<tag>` (manifest_cache.rs
`manifest_path` parent; the platform config dir is a parameter). -/
def manifest_dir (config_dir : String) (cv : CrateVars) : String :=
  config_dir ++ "/bulker/manifests/" ++ cv.nspace ++ "/" ++ cv.crate_name ++ "/" ++ cv.tag

/-- Full path of a crate's cached manifest (manifest_cache.rs `manifest_path`). -/
def manifest_path (config_dir : String) (cv : CrateVars) : String :=
  manifest_dir config_dir cv ++ "/manifest.yaml"

/-- Filesystem trace of manifest_cache.rs `save_to_cache`: create the parent
directories, write the serialized manifest directly to the final cache path,
then write the digest sidecar.  The YAML serialization and the digest are
parameters (the serializer and digest subsystem are out of scope). -/
def save_to_cache_ops (config_dir : String) (cv : CrateVars)
    (yaml : String) (digest : String) : List FsOp :=
  [ .createDirAll (manifest_dir config_dir cv),
    .writeFile (manifest_path config_dir cv) yaml,
    .writeFile (manifest_dir config_dir cv ++ "/crate-manifest-digest") digest ]

-- ── Process supervisor (src/process.rs) ──────────────────────────────────────

/-- Signals of the escalation sequence (process.rs `graceful_kill_group`). -/
inductive Sig where
  | sigint
  | sigterm
  | sigkill
deriving DecidableEq, Repr

/-- Inner wait loop of `graceful_kill_group`: starting at probe index `i`,
poll the group up to `n` times (the count of 100 ms sleeps that fit in the
step's timeout, timing-dependent in the source); `alive k` is the result of
the k-th signal-zero probe.  Returns whether death was observed and the next
probe index. -/
def wait_for_death (alive : Nat → Bool) (i : Nat) : Nat → Bool × Nat
  | 0 => (false, i)
  | n + 1 => if alive i then wait_for_death alive (i + 1) n else (true, i + 1)

/-- Escalation loop of process.rs `graceful_kill_group` over the remaining
(signal, poll budget) steps: probe liveness first, return if the group is
gone, otherwise send the signal and wait; returns the list of signals sent. -/
def kill_loop (alive : Nat → Bool) : List (Sig × Nat) → Nat → List Sig
  | [], _ => []
  | (sig, polls) :: rest, i =>
    if alive i then
      let w := wait_for_death alive (i + 1) polls
      sig :: (if w.1 then [] else kill_loop alive rest w.2)
    else []

/-- Gracefully kill a process group with escalating signals SIGINT, SIGTERM,
SIGKILL (process.rs `graceful_kill_group`); `p1 p2 p3` are the poll budgets of
the three bounded waits (1 s, 1 s, 0.5 s at 100 ms granularity in the source). -/
def graceful_kill_group (alive : Nat → Bool) (p1 p2 p3 : Nat) : List Sig :=
  kill_loop alive [(.sigint, p1), (.sigterm, p2), (.sigkill, p3)] 0

/-- Sentinel initial value of the global child PID (process.rs `CHILD_PID`). -/
def CHILD_PID_INIT : Int := -1

/-- Guard of the signal-listener thread body (process.rs
`setup_signal_forwarding`): a kill escalation is attempted only when the
stored pid is strictly positive. -/
def signal_listener_fires (pid : Int) : Bool :=
  decide (0 < pid)

/-- Events of process.rs `spawn_and_wait`, in program order. -/
inductive ProcEvent where
  | setupForwarding
  | spawnChild (pid : Int)
  | storePid (pid : Int)
  | waitChild
deriving DecidableEq, Repr

/-- Event trace of process.rs `spawn_and_wait`: install the signal listener,
spawn the child in a new session, store its pid in the global handle, then
block waiting for it. -/
def spawn_and_wait_events (pid : Int) : List ProcEvent :=
  [.setupForwarding, .spawnChild pid, .storePid pid, .waitChild]

-- ── Legacy config-based import resolver (src/imports.rs) ─────────────────────

/-- A crate entry of the config crates map (referenced as `config::CrateEntry`
from imports.rs and crate_ops.rs): install path plus import list. -/
structure CrateEntry where
  path : String
  imports : List String
deriving DecidableEq, Repr

/-- Modelled from the spec: the configuration data consumed by the resolver
in imports.rs.  The `BulkerConfig.get_crate_entry` method and the crates field
are referenced from src/ (imports.rs, crate_ops.rs and the imports.rs tests)
but absent from src/config.rs; the nested namespace → crate name → tag map
shape, here nested association lists mirroring the BTreeMap nesting, is fixed
by the imports.rs tests, and `default_nspace` embeds
`config.bulker.default_namespace`. -/
structure ConfigCrates where
  default_nspace : String
  crates : List (String × List (String × List (String × CrateEntry)))
deriving DecidableEq, Repr

/-- First-match association list lookup (embeds `BTreeMap::get`). -/
def alist_get {α : Type} (k : String) : List (String × α) → Option α
  | [] => none
  | (k2, v) :: rest => if k2 == k then some v else alist_get k rest

/-- Modelled from the spec: `config.get_crate_entry(cratevars)` (absent from
src/config.rs): the nested lookup namespace → crate name → tag. -/
def get_crate_entry (config : ConfigCrates) (cv : CrateVars) : Option CrateEntry :=
  match alist_get cv.nspace config.crates with
  | none => none
  | some ns =>
    match alist_get cv.crate_name ns with
    | none => none
    | some cm => alist_get cv.tag cm

/-- Mutable state threaded through imports.rs `resolve_crate_paths`: the
accumulated path list and the visited set of display names (the HashSet is
modelled as a membership-queried list). -/
structure ResolveState where
  paths : List String
  visited : List String
deriving DecidableEq, Repr

/-- Error produced by imports.rs `resolve_crate_paths` for a crate missing
from the config. -/
def not_installed_error (key : String) : String :=
  "Crate " ++ sq ++ key ++ sq ++ " is not installed. Run " ++ sq ++
    "bulkers crate list" ++ sq ++ " to see installed crates, or " ++ sq ++
    "bulkers crate install" ++ sq ++ " to add one."

/-- Import loop of imports.rs `resolve_crate_paths`: parse each import path
string with the configured default namespace and resolve it, threading the
state. -/
def resolve_import_list
    (resolve : CrateVars → ResolveState → Option (Except String ResolveState))
    (dns : String) : List String → ResolveState → Option (Except String ResolveState)
  | [], s => some (.ok s)
  | imp :: rest, s =>
    match parse_registry_path imp dns with
    | .error e => some (.error e)
    | .ok cv =>
      match resolve cv s with
      | none => none
      | some (.error e) => some (.error e)
      | some (.ok s2) => resolve_import_list resolve dns rest s2

/-- Recursively resolve a crate's path and all its import paths, depth-first
(imports.rs `resolve_crate_paths`): skip if visited, record the visit, push
the crate's own path, then expand each import in declaration order.  The Rust
recursion is unbounded; the embedding is fueled (`none` = fuel ran out) and
the fuel used by the entry point is proved adequate below. -/
def resolve_crate_paths (config : ConfigCrates) :
    Nat → CrateVars → ResolveState → Option (Except String ResolveState)
  | 0, _, _ => none
  | fuel + 1, cv, s =>
    let key := cv.display_name
    if s.visited.contains key then some (.ok s)
    else
      match get_crate_entry config cv with
      | none => some (.error (not_installed_error key))
      | some entry =>
        resolve_import_list (fun cv2 s2 => resolve_crate_paths config fuel cv2 s2)
          config.default_nspace entry.imports
          ⟨s.paths ++ [entry.path], s.visited ++ [key]⟩

/-- Loop over the starting crate list (imports.rs `resolve_paths_with_imports`
body), threading state. -/
def resolve_cratelist
    (resolve : CrateVars → ResolveState → Option (Except String ResolveState)) :
    List CrateVars → ResolveState → Option (Except String ResolveState)
  | [], s => some (.ok s)
  | cv :: rest, s =>
    match resolve cv s with
    | none => none
    | some (.error e) => some (.error e)
    | some (.ok s2) => resolve_cratelist resolve rest s2

/-- All display names of entries present in the config crates map; the visited
set can only acquire such names, which bounds the recursion. -/
def config_keys (config : ConfigCrates) : List String :=
  config.crates.flatMap (fun nsp =>
    nsp.2.flatMap (fun cm =>
      cm.2.map (fun tg => nsp.1 ++ "/" ++ cm.1 ++ ":" ++ tg.1)))

/-- Fuel sufficient for any resolution over `config`. -/
def resolver_fuel (config : ConfigCrates) : Nat := (config_keys config).length + 1

/-- Build a PATH string including the crates' own paths plus all imported
crate paths, recursively (imports.rs `resolve_paths_with_imports`); the
invoking environment's PATH is the parameter `host_path`. -/
def resolve_paths_with_imports (config : ConfigCrates) (cratelist : List CrateVars)
    (strict : Bool) (host_path : String) : Option (Except String String) :=
  match resolve_cratelist
      (fun cv s => resolve_crate_paths config (resolver_fuel config) cv s)
      cratelist ⟨[], []⟩ with
  | none => none
  | some (.error e) => some (.error e)
  | some (.ok s) =>
    let crate_path_str := String.intercalate ":" s.paths
    if strict then some (.ok crate_path_str)
    else some (.ok (crate_path_str ++ ":" ++ host_path))

-- ── Manifest cache and the runtime import resolver ───────────────────────────

/-- Cache contents as a binding list, one manifest per crate reference
(manifest_cache.rs layout, with the filesystem abstracted away). -/
abbrev ManifestCache := List (CrateVars × Manifest)

/-- Load a manifest from the cache, `none` when absent (pure embedding of
manifest_cache.rs `load_cached`; filesystem read errors are out of scope). -/
def load_cached (cache : ManifestCache) (cv : CrateVars) : Option Manifest :=
  match cache.find? (fun e => e.1 == cv) with
  | some e => some e.2
  | none => none

/-- Terminal error for a crate with no cached manifest, naming the crate and
suggesting how to cache it (message of shimlink.rs `load_cached_manifest`,
also used by the spec-modelled resolver). -/
def not_cached_error (cv : CrateVars) : String :=
  "Crate " ++ sq ++ cv.display_name ++ sq ++ " is not cached. Run " ++ sq ++
    "bulker activate " ++ cv.display_name ++ sq ++ " to fetch it."

/-- Modelled from the spec: the distinct depth-exceeded error of §4.3, naming
the offending crate and the configured limit. -/
def depth_limit_error (cv : CrateVars) (limit : Nat) : String :=
  "Import depth limit (" ++ toString limit ++ ") exceeded while resolving crate " ++
    sq ++ cv.display_name ++ sq

/-- State threaded through the runtime resolver: emitted crate references in
depth-first order plus the visited set of display names. -/
structure CvResolveState where
  out : List CrateVars
  visited : List String
deriving DecidableEq, Repr

/-- Import loop of the runtime resolver: parse each import path string with
the resolution-time default namespace and resolve it, threading state. -/
def resolve_cv_imports
    (resolve : CrateVars → CvResolveState → Except String CvResolveState)
    (dns : String) : List String → CvResolveState → Except String CvResolveState
  | [], s => .ok s
  | imp :: rest, s =>
    match parse_registry_path imp dns with
    | .error e => .error e
    | .ok cv =>
      match resolve cv s with
      | .error e => .error e
      | .ok s2 => resolve_cv_imports resolve dns rest s2

/-- Modelled from the spec: one crate step of
`imports::resolve_cratevars_with_imports` (called from activate.rs:42 and
shimlink.rs:390 but absent from src/imports.rs).  Per spec §4.3: an explicit
depth counter fails with a distinct error naming the crate and the configured
`limit` once the ceiling is exceeded; a visited set of display names skips
references already emitted (cycle safety); otherwise the crate's own reference
is appended before its imports are visited, manifests are read only from the
manifest cache, and an uncached crate is a terminal error naming the crate and
suggesting how to cache it.  The spec's depth counter counts up to `limit`;
the embedding recurses structurally on the remaining budget
`gas = limit - depth`, which hits 0 exactly when the counter exceeds the
ceiling. -/
def resolve_cv (limit : Nat) (cache : ManifestCache) (dns : String) :
    Nat → CrateVars → CvResolveState → Except String CvResolveState
  | 0, cv, _ => .error (depth_limit_error cv limit)
  | gas + 1, cv, s =>
    let key := cv.display_name
    if s.visited.contains key then .ok s
    else
      match load_cached cache cv with
      | none => .error (not_cached_error cv)
      | some m =>
        resolve_cv_imports (fun cv2 s2 => resolve_cv limit cache dns gas cv2 s2)
          dns m.manifest.imports ⟨s.out ++ [cv], s.visited ++ [key]⟩

/-- Loop over the starting crate list of the runtime resolver. -/
def resolve_cv_start
    (resolve : CrateVars → CvResolveState → Except String CvResolveState) :
    List CrateVars → CvResolveState → Except String CvResolveState
  | [], s => .ok s
  | cv :: rest, s =>
    match resolve cv s with
    | .error e => .error e
    | .ok s2 => resolve_cv_start resolve rest s2

/-- Modelled from the spec: `imports::resolve_cratevars_with_imports` — expand
one or more starting references into the Resolved Crate Set, depth-first, over
the manifest cache, with cycle and depth safety (§4.3); each starting
reference begins at depth 0, i.e. with full budget `limit`. -/
def resolve_cratevars_with_imports (limit : Nat) (cache : ManifestCache) (dns : String)
    (cratelist : List CrateVars) : Except String (List CrateVars) :=
  match resolve_cv_start (fun cv s => resolve_cv limit cache dns limit cv s) cratelist ⟨[], []⟩ with
  | .error e => .error e
  | .ok s => .ok s.out

/-- Scan loop of shimlink.rs `find_command_in_crate_with_imports`: the first
matching command across the resolved crates' cached manifests wins; a crate
with no cached manifest is skipped by the `if let` in the source. -/
def find_command_scan (cache : ManifestCache) (primary_cv : CrateVars)
    (command_name : String) : List CrateVars → Except String PackageCommand
  | [] => .error ("Command " ++ sq ++ command_name ++ sq ++ " not found in crate " ++
      sq ++ primary_cv.display_name ++ sq ++ " or its imports")
  | cv :: rest =>
    match load_cached cache cv with
    | some manifest =>
      match manifest.manifest.commands.find? (fun c => c.command == command_name) with
      | some pkg => .ok pkg
      | none => find_command_scan cache primary_cv command_name rest
    | none => find_command_scan cache primary_cv command_name rest

/-- Find a command by searching the primary crate manifest and all its imports
(shimlink.rs `find_command_in_crate_with_imports`). -/
def find_command_in_crate_with_imports (limit : Nat) (cache : ManifestCache)
    (dns : String) (primary_cv : CrateVars) (command_name : String) :
    Except String PackageCommand :=
  match resolve_cratevars_with_imports limit cache dns [primary_cv] with
  | .error e => .error e
  | .ok all_crates => find_command_scan cache primary_cv command_name all_crates

/-- Load a cached manifest, failing with a remediation hint when absent
(shimlink.rs `load_cached_manifest`). -/
def load_cached_manifest (cache : ManifestCache) (cv : CrateVars) :
    Except String Manifest :=
  match load_cached cache cv with
  | some m => .ok m
  | none => .error (not_cached_error cv)

-- ── Cache ensure operations (src/manifest_cache.rs) ──────────────────────────

/-- Overwrite/insert a cache binding (pure effect of manifest_cache.rs
`save_to_cache` on subsequent `load_cached` reads: the new binding shadows any
old one). -/
def save_cached (cache : ManifestCache) (cv : CrateVars) (m : Manifest) : ManifestCache :=
  (cv, m) :: cache

/-- Ensure a manifest is cached, fetching from the registry when absent or
when `force` (manifest_cache.rs `ensure_cached`); the registry collaborator is
the parameter `registry`, and the evolved cache is returned alongside. -/
def ensure_cached (registry : CrateVars → Option Manifest) (cache : ManifestCache)
    (cv : CrateVars) (force : Bool) : Except String (Manifest × ManifestCache) :=
  match if force then none else load_cached cache cv with
  | some m => .ok (m, cache)
  | none =>
    match registry cv with
    | some m => .ok (m, save_cached cache cv m)
    | none => .error ("Failed to fetch manifest: " ++ cv.display_name)

/-- Import loop of manifest_cache.rs `ensure_cached_with_imports`, threading
the evolving cache through the recursive ensure of each parsed import. -/
def ensure_import_list
    (ensure : ManifestCache → CrateVars → Option (Except String ManifestCache))
    (dns : String) : List String → ManifestCache → Option (Except String ManifestCache)
  | [], cache => some (.ok cache)
  | imp :: rest, cache =>
    match parse_registry_path imp dns with
    | .error e => some (.error e)
    | .ok cv =>
      match ensure cache cv with
      | none => none
      | some (.error e) => some (.error e)
      | some (.ok cache2) => ensure_import_list ensure dns rest cache2

/-- Recursively ensure a manifest and all its imports are cached, exactly as
defined at manifest_cache.rs:115-126: ensure this crate, then recurse into
every import of its manifest.  That definition carries no visited set; the
embedding is fueled, `none` meaning the recursion did not finish within the
given fuel. -/
def ensure_cached_with_imports (registry : CrateVars → Option Manifest) (dns : String) :
    Nat → ManifestCache → CrateVars → Bool →
    Option (Except String (Manifest × ManifestCache))
  | 0, _, _, _ => none
  | fuel + 1, cache, cv, force =>
    match ensure_cached registry cache cv force with
    | .error e => some (.error e)
    | .ok (m, cache1) =>
      match ensure_import_list
          (fun cache2 cv2 =>
            match ensure_cached_with_imports registry dns fuel cache2 cv2 force with
            | none => none
            | some (.error e) => some (.error e)
            | some (.ok p) => some (.ok p.2))
          dns m.manifest.imports cache1 with
      | none => none
      | some (.error e) => some (.error e)
      | some (.ok cache2) => some (.ok (m, cache2))

-- ── Proof-side predicates ────────────────────────────────────────────────────

/-- Relation between legacy-resolver states: the second extends the first by
freshly visited keys (no duplicates, none previously visited), with exactly
one emitted path per newly visited key. -/
def StateExt (s s2 : ResolveState) : Prop :=
  ∃ pe ve, s2.paths = s.paths ++ pe ∧ s2.visited = s.visited ++ ve ∧
    ve.Nodup ∧ (∀ k ∈ ve, k ∉ s.visited) ∧ pe.length = ve.length

/-- Number of config keys not yet visited: the legacy resolver's recursion
measure. -/
def uncovered (config : ConfigCrates) (visited : List String) : Nat :=
  ((config_keys config).filter (fun k => !visited.contains k)).length

/-- Relation between runtime-resolver states: the second extends the first. -/
def CvStateExt (s s2 : CvResolveState) : Prop :=
  ∃ oe ve, s2.out = s.out ++ oe ∧ s2.visited = s.visited ++ ve

/-- Every crate emitted so far has a cached manifest. -/
def CachedOut (cache : ManifestCache) (s : CvResolveState) : Prop :=
  ∀ cv ∈ s.out, ∃ m, load_cached cache cv = some m

-- ── Concrete fixtures ────────────────────────────────────────────────────────

/-- Crate reference bulker/a:default (imports.rs cyclic-import test). -/
def cvA : CrateVars := ⟨"bulker", "a", "default"⟩

/-- Crate reference bulker/b:default (imports.rs cyclic-import test). -/
def cvB : CrateVars := ⟨"bulker", "b", "default"⟩

/-- Legacy config with a ↔ b mutual imports
(imports.rs test_resolve_circular_imports_handled). -/
def configAB : ConfigCrates :=
  ⟨"bulker",
   [("bulker",
     [("a", [("default", ⟨"/tmp/crates/bulker/a/default", ["bulker/b"]⟩)]),
      ("b", [("default", ⟨"/tmp/crates/bulker/b/default", ["bulker/a"]⟩)])])]⟩

/-- Legacy config for a depth-first order check: parent imports c1 then c2,
and c1 itself imports c3. -/
def configDfs : ConfigCrates :=
  ⟨"bulker",
   [("bulker",
     [("parent", [("default", ⟨"/p", ["bulker/c1", "bulker/c2"]⟩)]),
      ("c1", [("default", ⟨"/c1", ["bulker/c3"]⟩)]),
      ("c2", [("default", ⟨"/c2", []⟩)]),
      ("c3", [("default", ⟨"/c3", []⟩)])])]⟩

/-- Starting reference of `configDfs`. -/
def cvParent : CrateVars := ⟨"bulker", "parent", "default"⟩

/-- Manifest of bulker/a:default, importing bulker/b. -/
def manifestA : Manifest := ⟨⟨none, none, [], [], ["bulker/b"]⟩⟩

/-- Manifest of bulker/b:default, importing bulker/a. -/
def manifestB : Manifest := ⟨⟨none, none, [], [], ["bulker/a"]⟩⟩

/-- Manifest cache with a ↔ b mutual imports, both cached. -/
def cacheAB : ManifestCache :=
  [(cvA, manifestA), (cvB, manifestB)]

/-- Registry agreeing with `cacheAB`. -/
def registryAB : CrateVars → Option Manifest := fun cv => load_cached cacheAB cv

/-- Primary crate of the command-lookup fixture (shimlink.rs
test_find_command_in_imported_crate shape). -/
def cvParentW : CrateVars := ⟨"test", "parent", "default"⟩

/-- Imported crate of the command-lookup fixture. -/
def cvChildW : CrateVars := ⟨"bulker", "child", "default"⟩

/-- Definition of command dup declared by the primary crate. -/
def pkgParentDup : PackageCommand :=
  { command := "dup", docker_image := "parent-dup:latest" }

/-- Definition of command dup declared by the imported crate. -/
def pkgChildDup : PackageCommand :=
  { command := "dup", docker_image := "child-dup:latest" }

/-- Manifest of the primary crate: declares samtools and dup, imports the
child crate. -/
def manifestParentW : Manifest :=
  ⟨⟨none, none,
    [{ command := "samtools", docker_image := "samtools:latest" }, pkgParentDup],
    [], ["bulker/child"]⟩⟩

/-- Manifest of the imported crate: declares cat and its own dup. -/
def manifestChildW : Manifest :=
  ⟨⟨none, none,
    [{ command := "cat", docker_image := "alpine:latest" }, pkgChildDup],
    [], []⟩⟩

/-- Cache where both the primary crate and its import declare a command named
dup, and each also declares a command of its own. -/
def cacheParentChild : ManifestCache :=
  [(cvParentW, manifestParentW), (cvChildW, manifestChildW)]

/-- Cache where the primary crate is cached but its transitive import is not. -/
def cacheMissingImport : ManifestCache :=
  [(cvParentW, ⟨⟨none, none, [], [], ["bulker/missing"]⟩⟩)]

/-- The uncached import of `cacheMissingImport`. -/
def cvMissing : CrateVars := ⟨"bulker", "missing", "default"⟩

-- ── Acyclic chain fixtures for the depth ceiling ─────────────────────────────

/-- Name of the i-th crate of the depth chain: i+1 letters a, so distinct
indices give names of distinct lengths. -/
def chain_name (i : Nat) : String := String.mk (List.replicate (i + 1) 'a')

/-- Reference of the i-th chain crate. -/
def chain_cv (i : Nat) : CrateVars := ⟨"bulker", chain_name i, "default"⟩

/-- Manifest of crate i in an n-crate import chain: imports the next crate
when one exists. -/
def chain_manifest (n i : Nat) : Manifest :=
  ⟨⟨none, none, [], [], if i + 1 < n then [chain_name (i + 1)] else []⟩⟩

/-- Cache holding an n-crate acyclic import chain. -/
def chain_cache (n : Nat) : ManifestCache :=
  (List.range n).map (fun i => (chain_cv i, chain_manifest n i))

/-- Resolver state after the first i chain crates have been emitted. -/
def chain_state (i : Nat) : CvResolveState :=
  ⟨(List.range i).map chain_cv,
   (List.range i).map (fun j => (chain_cv j).display_name)⟩

/-- Concrete input for the TTY-stripping counterexample: a quoted argument
carrying no tty flag. -/
def c7_input : String := "--env \x27FOO=bar baz\x27"

-- ═══ Theorems ════════════════════════════════════════════════════════════════

-- ── Shared list lemmas ───────────────────────────────────────────────────────

/-- Membership of a merged list is membership of either input. -/
theorem mem_merge_lists (k : String) :
    ∀ (secondary primary : List String),
      k ∈ merge_lists primary secondary ↔ k ∈ primary ∨ k ∈ secondary := by
  intro secondary
  induction secondary with
  | nil => intro primary; simp [merge_lists]
  | cons i rest ih =>
    intro primary
    have h1 : merge_lists primary (i :: rest) =
        merge_lists (if primary.contains i then primary else primary ++ [i]) rest := by
      simp [merge_lists]
    rw [h1, ih]
    by_cases hc : primary.contains i = true
    · have hi : i ∈ primary := by simpa using hc
      simp only [if_pos hc, List.mem_cons]
      constructor
      · rintro (h | h)
        · exact Or.inl h
        · exact Or.inr (Or.inr h)
      · rintro (h | h | h)
        · exact Or.inl h
        · exact Or.inl (h ▸ hi)
        · exact Or.inr h
    · simp only [if_neg hc, List.mem_append, List.mem_singleton, List.mem_cons]
      tauto

-- ── C6: environment-variable selection ───────────────────────────────────────

/-- C6: in normal mode the forwarded set is exactly the host environment's
variable names minus PATH/HOME/HOSTNAME, minus the locale set, minus
BULKER-prefixed internal names; in strict mode it is exactly the configured
defaults plus the command's declared names plus the parsed comma-separated
extension list — the host environment is not even an input — and with
allow-list [DISPLAY, LANG] exactly those two variables are forwarded. -/
theorem c6_envvar_selection :
    (∀ (env : List (String × String)) (k : String),
        k ∈ collect_host_envvars env ↔
          (k ∈ env.map (fun kv => kv.1) ∧ k ∉ DOCKER_MANAGED_VARS ∧
            k ∉ LOCALE_VARS ∧ ¬ k.startsWith "BULKER")) ∧
    (∀ (cfg pkg : List String) (k : String),
        k ∈ strict_envvars cfg pkg none ↔ (k ∈ cfg ∨ k ∈ pkg)) ∧
    (∀ (cfg pkg : List String) (e : String) (k : String),
        k ∈ strict_envvars cfg pkg (some e) ↔
          (k ∈ cfg ∨ k ∈ pkg ∨ k ∈ parsed_extra_envvars e)) ∧
    strict_envvars ["DISPLAY", "LANG"] [] none = ["DISPLAY", "LANG"] := by
  refine ⟨?_, ?_, ?_, by decide⟩
  · intro env k
    simp only [collect_host_envvars, List.mem_filter, List.mem_map,
      Bool.not_eq_true', and_assoc]
    constructor
    · rintro ⟨⟨x, hx, rfl⟩, hd, hl, hb⟩
      refine ⟨⟨x, hx, rfl⟩, by simpa using hd, by simpa using hl, by simp [hb]⟩
    · rintro ⟨⟨x, hx, rfl⟩, hd, hl, hb⟩
      refine ⟨⟨x, hx, rfl⟩, by simpa using hd, by simpa using hl, by
        simpa using hb⟩
  · intro cfg pkg k
    simp [strict_envvars, mem_merge_lists]
  · intro cfg pkg e k
    simp [strict_envvars, mem_merge_lists, or_assoc]

-- ── C7: TTY flag stripping ───────────────────────────────────────────────────

/-- A token carrying no tty request passes through the stripping step
unchanged. -/
theorem strip_tty_token_no_tty (part : String) (acc : List String)
    (h : token_has_no_tty part = true) : strip_tty_token acc part = acc ++ [part] := by
  unfold token_has_no_tty at h
  simp only [Bool.and_eq_true, Bool.or_eq_true, Bool.not_eq_true',
    decide_eq_true_eq] at h
  obtain ⟨⟨h1, h2⟩, h3⟩ := h
  unfold strip_tty_token
  have hne : (part == "-t" || part == "--tty") = false := by
    simp [h1, h2]
  rw [hne]
  simp only [Bool.false_eq_true, if_false]
  by_cases hcl :
      (starts_with_char part '-' && !starts_with_dd part &&
        decide (part.data.length > 1)) = true
  · have hlen : part.data.length > 1 := by
      have := hcl
      simp only [Bool.and_eq_true, decide_eq_true_eq] at this
      exact this.2
    rcases h3 with h3 | h3
    · rw [hcl] at h3; cases h3
    · have hnt : 't' ∉ part.data := by simpa using h3
      have hfil : part.data.filter (fun c => c ≠ 't') = part.data :=
        List.filter_eq_self.mpr (fun a ha => by
          simp only [ne_eq, decide_eq_true_eq]
          intro hat
          exact hnt (hat ▸ ha))
      rw [if_pos hcl]
      simp only [hfil]
      have heta : String.mk part.data = part := rfl
      rw [heta]
      have hdash : (part == "-") = false := by
        apply beq_eq_false_iff_ne.mpr
        intro he
        rw [he] at hlen
        simp at hlen
      rw [hdash]
      simp
  · rw [if_neg hcl]

/-- A token list that is entirely tty-free folds through the stripper
unchanged. -/
theorem strip_tty_foldl_no_tty :
    ∀ (parts : List String) (acc : List String),
      parts.all token_has_no_tty = true →
      parts.foldl strip_tty_token acc = acc ++ parts := by
  intro parts
  induction parts with
  | nil => intro acc _; simp
  | cons p rest ih =>
    intro acc hall
    simp only [List.all_cons, Bool.and_eq_true] at hall
    rw [List.foldl_cons, strip_tty_token_no_tty p acc hall.1, ih _ hall.2]
    simp

/-- An argument string whose shell-split tokens are all tty-free is returned
as the plain space-join of those tokens. -/
theorem strip_tty_flag_no_tty (s : String)
    (h : (shell_split s).all token_has_no_tty = true) :
    strip_tty_flag s = String.intercalate " " (shell_split s) := by
  show " ".intercalate (List.foldl strip_tty_token [] (shell_split s)) = _
  rw [strip_tty_foldl_no_tty _ [] h]
  simp

/-- C7 counterexample: the quoted argument string `--env 'FOO=bar baz'`
contains no tty flag, yet TTY-flag stripping does not return it unchanged —
the quotes are lost in the shell-split/rejoin round trip. -/
theorem c7_counterexample :
    (shell_split c7_input).all token_has_no_tty = true ∧
    (strip_tty_flag c7_input == c7_input) = false ∧
    strip_tty_flag c7_input = "--env FOO=bar baz" :=
  ⟨by decide, by decide, by decide⟩

/-- C7 (amended): `-it` becomes `-i`, `-dit` becomes `-di`, `--tty` and `-t`
are removed entirely, and an argument string containing no tty flag is
returned unchanged provided it is already in normalized shell form — equal to
the space-join of its shell-split tokens (no quoting, escapes, or extra
whitespace); in general a tty-free string is returned as that space-join. -/
theorem c7_tty_strip :
    strip_tty_flag "-it" = "-i" ∧
    strip_tty_flag "-dit" = "-di" ∧
    strip_tty_flag "--tty" = "" ∧
    strip_tty_flag "-t" = "" ∧
    (∀ s : String, (shell_split s).all token_has_no_tty = true →
      strip_tty_flag s = String.intercalate " " (shell_split s)) ∧
    (∀ s : String, (shell_split s).all token_has_no_tty = true →
      String.intercalate " " (shell_split s) = s → strip_tty_flag s = s) := by
  refine ⟨by decide, by decide, by decide, by decide, strip_tty_flag_no_tty, ?_⟩
  intro s h1 h2
  rw [strip_tty_flag_no_tty s h1, h2]

/-- C7 witness: a normalized tty-free docker_args string is returned
unchanged. -/
theorem c7_tty_strip_witness :
    (shell_split "-i --entrypoint jq").all token_has_no_tty = true ∧
    String.intercalate " " (shell_split "-i --entrypoint jq") = "-i --entrypoint jq" ∧
    strip_tty_flag "-i --entrypoint jq" = "-i --entrypoint jq" :=
  ⟨by decide, by decide,
   c7_tty_strip.2.2.2.2.2 "-i --entrypoint jq" (by decide) (by decide)⟩

-- ── C8: manifest cache save is not atomic ────────────────────────────────────

/-- C8: the filesystem trace of `save_to_cache` contains no rename at all —
in particular no atomic replace of the final cache path — and instead writes
the serialized manifest directly to the final cache path, so a concurrent
reader can observe a half-written manifest. -/
theorem c8_save_to_cache_not_atomic :
    ∀ (config_dir : String) (cv : CrateVars) (yaml digest : String),
      (save_to_cache_ops config_dir cv yaml digest).filter FsOp.isRename = [] ∧
      FsOp.writeFile (manifest_path config_dir cv) yaml ∈
        save_to_cache_ops config_dir cv yaml digest := by
  intro config_dir cv yaml digest
  exact ⟨rfl, by simp [save_to_cache_ops]⟩

-- ── C9: signal escalation stops when the group is gone ───────────────────────

/-- C9: the escalation probes liveness before each step, so a group that is
already dead on entry is never signaled at all, and a group that disappears
right after the interrupt signal receives neither the terminate nor the
force-kill signal — for every timing (poll budgets p1 p2 p3). -/
theorem c9_signal_escalation :
    ∀ (alive : Nat → Bool) (p1 p2 p3 : Nat),
      (alive 0 = false → graceful_kill_group alive p1 p2 p3 = []) ∧
      (alive 0 = true → (∀ k, 1 ≤ k → alive k = false) →
        graceful_kill_group alive p1 p2 p3 = [Sig.sigint]) := by
  intro alive p1 p2 p3
  constructor
  · intro h0
    simp [graceful_kill_group, kill_loop, h0]
  · intro h0 hdead
    have h1 : alive 1 = false := hdead 1 (by omega)
    cases p1 with
    | zero => simp [graceful_kill_group, kill_loop, wait_for_death, h0, h1]
    | succ n => simp [graceful_kill_group, kill_loop, wait_for_death, h0, h1]

/-- C9 witness: a process group alive only at the very first probe receives
exactly the interrupt signal. -/
theorem c9_signal_escalation_witness :
    graceful_kill_group (fun k => k == 0) 10 10 5 = [Sig.sigint] :=
  (c9_signal_escalation (fun k => k == 0) 10 10 5).2 rfl (fun k hk => by
    cases k with
    | zero => omega
    | succ n => rfl)

-- ── C10: child PID sentinel and listener guard ───────────────────────────────

/-- C10: the global child handle starts at the sentinel -1; the signal
listener escalates exactly when the stored value is strictly positive, so at
the sentinel (before any spawn) it does nothing; and `spawn_and_wait` stores
the child pid immediately after the spawn and before the blocking wait. -/
theorem c10_child_pid_guard :
    CHILD_PID_INIT = -1 ∧
    signal_listener_fires CHILD_PID_INIT = false ∧
    (∀ pid : Int, signal_listener_fires pid = true ↔ 0 < pid) ∧
    (∀ pid : Int, spawn_and_wait_events pid =
      [ProcEvent.setupForwarding] ++ [ProcEvent.spawnChild pid] ++
        [ProcEvent.storePid pid] ++ [ProcEvent.waitChild]) := by
  refine ⟨rfl, by decide, ?_, fun pid => rfl⟩
  intro pid
  simp [signal_listener_fires]

-- ── C4: ensure_cached_with_imports loops forever on an import cycle ──────────

/-- C4 (code bug): on the mutually-importing cached crates bulker/a and
bulker/b, the recursion of manifest_cache.rs `ensure_cached_with_imports`
(which carries no visited set) never terminates: for every fuel bound the
fueled embedding runs out of fuel, from either starting crate. -/
theorem c4_ensure_with_imports_cycle :
    ∀ fuel : Nat,
      ensure_cached_with_imports registryAB "bulker" fuel cacheAB cvA false = none ∧
      ensure_cached_with_imports registryAB "bulker" fuel cacheAB cvB false = none := by
  intro fuel
  induction fuel with
  | zero => exact ⟨rfl, rfl⟩
  | succ n ih =>
    have eA : ensure_cached registryAB cacheAB cvA false = .ok (manifestA, cacheAB) := by
      decide
    have eB : ensure_cached registryAB cacheAB cvB false = .ok (manifestB, cacheAB) := by
      decide
    have pB : parse_registry_path "bulker/b" "bulker" = .ok cvB := by decide
    have pA : parse_registry_path "bulker/a" "bulker" = .ok cvA := by decide
    constructor
    · simp only [ensure_cached_with_imports, eA, manifestA, ensure_import_list, pB,
        ih.2]
    · simp only [ensure_cached_with_imports, eB, manifestB, ensure_import_list, pA,
        ih.1]

-- ── C2: legacy resolver — state extension, termination, dedup ────────────────

/-- State extension is reflexive. -/
theorem state_ext_refl (s : ResolveState) : StateExt s s :=
  ⟨[], [], by simp, by simp, List.nodup_nil, by simp, Eq.refl 0⟩

/-- State extension is transitive. -/
theorem state_ext_trans {s1 s2 s3 : ResolveState}
    (h1 : StateExt s1 s2) (h2 : StateExt s2 s3) : StateExt s1 s3 := by
  obtain ⟨pe1, ve1, hp1, hv1, hn1, hf1, hl1⟩ := h1
  obtain ⟨pe2, ve2, hp2, hv2, hn2, hf2, hl2⟩ := h2
  refine ⟨pe1 ++ pe2, ve1 ++ ve2, by rw [hp2, hp1, List.append_assoc],
    by rw [hv2, hv1, List.append_assoc], ?_, ?_, by simp [hl1, hl2]⟩
  · rw [List.nodup_append]
    refine ⟨hn1, hn2, ?_⟩
    intro a ha1 ha2
    exact hf2 a ha2 (by rw [hv1]; exact List.mem_append_right _ ha1)
  · intro k hk
    rcases List.mem_append.mp hk with h | h
    · exact hf1 k h
    · intro hks1
      exact hf2 k h (by rw [hv1]; exact List.mem_append_left _ hks1)

/-- The import loop preserves state extension when the step resolver does. -/
theorem resolve_import_list_ext
    (resolve : CrateVars → ResolveState → Option (Except String ResolveState))
    (dns : String)
    (hres : ∀ cv s s2, resolve cv s = some (.ok s2) → StateExt s s2) :
    ∀ (imps : List String) (s s2 : ResolveState),
      resolve_import_list resolve dns imps s = some (.ok s2) → StateExt s s2 := by
  intro imps
  induction imps with
  | nil =>
    intro s s2 h
    simp only [resolve_import_list, Option.some.injEq, Except.ok.injEq] at h
    subst h
    exact state_ext_refl s
  | cons imp rest ih =>
    intro s s2 h
    simp only [resolve_import_list] at h
    split at h
    · cases h
    · cases hr : resolve _ s with
      | none => rw [hr] at h; cases h
      | some r =>
        rw [hr] at h
        cases r with
        | error e => cases h
        | ok s1 => exact state_ext_trans (hres _ s s1 hr) (ih s1 s2 h)

/-- Legacy resolver steps only extend the state, keep the visited set
duplicate-free, and emit exactly one path per newly visited crate. -/
theorem resolve_crate_paths_ext :
    ∀ (fuel : Nat) (config : ConfigCrates) (cv : CrateVars) (s s2 : ResolveState),
      resolve_crate_paths config fuel cv s = some (.ok s2) → StateExt s s2 := by
  intro fuel
  induction fuel with
  | zero => intro config cv s s2 h; cases h
  | succ n ih =>
    intro config cv s s2 h
    simp only [resolve_crate_paths] at h
    split at h
    · simp only [Option.some.injEq, Except.ok.injEq] at h
      subst h
      exact state_ext_refl s
    · next hv =>
      split at h
      · cases h
      · next entry hentry =>
        have hstep : StateExt s ⟨s.paths ++ [entry.path], s.visited ++ [cv.display_name]⟩ := by
          refine ⟨[entry.path], [cv.display_name], Eq.refl _, Eq.refl _,
            List.nodup_singleton _, ?_, Eq.refl 1⟩
          intro k hk
          simp only [List.mem_singleton] at hk
          subst hk
          simpa using hv
        exact state_ext_trans hstep
          (resolve_import_list_ext _ _ (fun cv3 s3 s4 h34 => ih config cv3 s3 s4 h34)
            entry.imports _ s2 h)

/-- The starting-list loop preserves state extension. -/
theorem resolve_cratelist_ext
    (resolve : CrateVars → ResolveState → Option (Except String ResolveState))
    (hres : ∀ cv s s2, resolve cv s = some (.ok s2) → StateExt s s2) :
    ∀ (cratelist : List CrateVars) (s s2 : ResolveState),
      resolve_cratelist resolve cratelist s = some (.ok s2) → StateExt s s2 := by
  intro cratelist
  induction cratelist with
  | nil =>
    intro s s2 h
    simp only [resolve_cratelist, Option.some.injEq, Except.ok.injEq] at h
    subst h
    exact state_ext_refl s
  | cons cv rest ih =>
    intro s s2 h
    simp only [resolve_cratelist] at h
    cases hr : resolve cv s with
    | none => rw [hr] at h; cases h
    | some r =>
      rw [hr] at h
      cases r with
      | error e => cases h
      | ok s1 => exact state_ext_trans (hres cv s s1 hr) (ih s1 s2 h)

/-- Filtering with a stronger predicate yields a list no longer. -/
theorem filter_length_le_of_imp {α : Type} (l : List α) (p q : α → Bool)
    (h : ∀ a, p a = true → q a = true) :
    (l.filter p).length ≤ (l.filter q).length := by
  induction l with
  | nil => simp
  | cons a rest ih =>
    by_cases hp : p a = true
    · rw [List.filter_cons_of_pos hp, List.filter_cons_of_pos (h a hp)]
      simpa using ih
    · rw [List.filter_cons_of_neg (by simpa using hp)]
      by_cases hq : q a = true
      · rw [List.filter_cons_of_pos hq]
        exact Nat.le_succ_of_le ih
      · rw [List.filter_cons_of_neg (by simpa using hq)]
        exact ih

/-- The recursion measure never grows along a state extension. -/
theorem uncovered_le_of_ext (config : ConfigCrates) {s s2 : ResolveState}
    (h : StateExt s s2) : uncovered config s2.visited ≤ uncovered config s.visited := by
  obtain ⟨pe, ve, hp, hv, _, _, _⟩ := h
  unfold uncovered
  apply filter_length_le_of_imp
  intro a ha
  have h2 : a ∉ s2.visited := by simpa using ha
  have h1 : a ∉ s.visited := fun hm => h2 (by rw [hv]; exact List.mem_append_left _ hm)
  simpa using h1

/-- Visiting a fresh config key strictly shrinks the recursion measure. -/
theorem uncovered_lt_of_insert (config : ConfigCrates) (visited : List String)
    (key : String) (hk : key ∈ config_keys config) (hnv : key ∉ visited) :
    uncovered config (visited ++ [key]) < uncovered config visited := by
  unfold uncovered
  have main : ∀ l : List String, key ∈ l →
      (l.filter (fun k => !(visited ++ [key]).contains k)).length <
        (l.filter (fun k => !visited.contains k)).length := by
    intro l
    induction l with
    | nil => intro h; cases h
    | cons a rest ih =>
      intro hmem
      by_cases hak : a = key
      · subst hak
        have hpa : ((visited ++ [a]).contains a) = true := by simp
        have hqa : (visited.contains a) = false := by simpa using hnv
        have hle := filter_length_le_of_imp rest
          (fun k => !(visited ++ [a]).contains k) (fun k => !visited.contains k)
          (fun b hb => by
            have hb2 : b ∉ visited ++ [a] := by simpa using hb
            have hbv : b ∉ visited := fun hm => hb2 (List.mem_append_left _ hm)
            simpa using hbv)
        simp only [List.filter_cons, hpa, hqa, Bool.not_true, Bool.not_false,
          Bool.false_eq_true, if_false, if_true, List.length_cons]
        exact Nat.lt_succ_of_le hle
      · have hmem2 : key ∈ rest := by
          rcases List.mem_cons.mp hmem with h | h
          · exact absurd h.symm hak
          · exact h
        have heq : (!(visited ++ [key]).contains a) = (!visited.contains a) := by
          by_cases hav : a ∈ visited
          · simp [hav]
          · simp [hav, hak]
        simp only [List.filter_cons, heq]
        by_cases hq : (!visited.contains a) = true
        · rw [if_pos hq, if_pos hq]
          simp only [List.length_cons]
          exact Nat.succ_lt_succ (ih hmem2)
        · rw [if_neg hq, if_neg hq]
          exact ih hmem2
  exact main _ hk

/-- An association list hit pins the searched key to an element of the list. -/
theorem alist_get_mem {α : Type} (k : String) :
    ∀ (l : List (String × α)) (v : α), alist_get k l = some v → (k, v) ∈ l := by
  intro l
  induction l with
  | nil => intro v h; cases h
  | cons e rest ih =>
    intro v h
    cases e with
    | mk k2 v2 =>
      simp only [alist_get] at h
      split at h
      · next heq =>
        simp only [Option.some.injEq] at h
        have hkk : k2 = k := by simpa using heq
        subst hkk
        subst h
        exact List.mem_cons_self _ _
      · exact List.mem_cons_of_mem _ (ih v h)

/-- A successful entry lookup puts the crate's display name among the config
keys. -/
theorem get_crate_entry_mem_keys (config : ConfigCrates) (cv : CrateVars)
    (entry : CrateEntry) (h : get_crate_entry config cv = some entry) :
    cv.display_name ∈ config_keys config := by
  unfold get_crate_entry at h
  split at h
  · cases h
  · next ns hns =>
    split at h
    · cases h
    · next cm hcm =>
      have h1 := alist_get_mem _ _ _ hns
      have h2 := alist_get_mem _ _ _ hcm
      have h3 := alist_get_mem _ _ _ h
      unfold config_keys
      rw [List.mem_flatMap]
      refine ⟨(cv.nspace, ns), h1, ?_⟩
      rw [List.mem_flatMap]
      refine ⟨(cv.crate_name, cm), h2, ?_⟩
      rw [List.mem_map]
      exact ⟨(cv.tag, entry), h3, Eq.refl _⟩

/-- The import loop cannot run out of fuel when the step resolver cannot. -/
theorem resolve_import_list_total (config : ConfigCrates)
    (resolve : CrateVars → ResolveState → Option (Except String ResolveState))
    (dns : String) (B : Nat)
    (hext : ∀ cv s s2, resolve cv s = some (.ok s2) → StateExt s s2)
    (htot : ∀ cv s, uncovered config s.visited < B → resolve cv s ≠ none) :
    ∀ imps s, uncovered config s.visited < B →
      resolve_import_list resolve dns imps s ≠ none := by
  intro imps
  induction imps with
  | nil => intro s _; simp [resolve_import_list]
  | cons imp rest ih =>
    intro s hs
    simp only [resolve_import_list]
    split
    · simp
    · cases hr : resolve _ s with
      | none => exact absurd hr (htot _ s hs)
      | some r =>
        cases r with
        | error e => simp
        | ok s1 =>
          exact ih s1 (Nat.lt_of_le_of_lt (uncovered_le_of_ext config (hext _ s s1 hr)) hs)

/-- Fuel adequacy of the legacy resolver: with fuel above the recursion
measure the resolver always returns a result. -/
theorem resolve_crate_paths_total :
    ∀ (fuel : Nat) (config : ConfigCrates) (cv : CrateVars) (s : ResolveState),
      uncovered config s.visited < fuel →
      resolve_crate_paths config fuel cv s ≠ none := by
  intro fuel
  induction fuel with
  | zero => intro config cv s h; exact absurd h (Nat.not_lt_zero _)
  | succ n ih =>
    intro config cv s hs
    simp only [resolve_crate_paths]
    split
    · simp
    · next hv =>
      split
      · simp
      · next entry hentry =>
        apply resolve_import_list_total config _ config.default_nspace n
          (fun cv3 s3 s4 h34 => resolve_crate_paths_ext n config cv3 s3 s4 h34)
          (fun cv3 s3 h3 => ih config cv3 s3 h3)
        show uncovered config (s.visited ++ [cv.display_name]) < n
        have hk : cv.display_name ∈ config_keys config :=
          get_crate_entry_mem_keys config cv entry hentry
        have hnv : cv.display_name ∉ s.visited := by simpa using hv
        have hlt := uncovered_lt_of_insert config s.visited cv.display_name hk hnv
        omega

/-- The starting-list loop cannot run out of fuel when the step resolver
cannot. -/
theorem resolve_cratelist_total (config : ConfigCrates)
    (resolve : CrateVars → ResolveState → Option (Except String ResolveState))
    (B : Nat)
    (hext : ∀ cv s s2, resolve cv s = some (.ok s2) → StateExt s s2)
    (htot : ∀ cv s, uncovered config s.visited < B → resolve cv s ≠ none) :
    ∀ cratelist s, uncovered config s.visited < B →
      resolve_cratelist resolve cratelist s ≠ none := by
  intro cratelist
  induction cratelist with
  | nil => intro s _; simp [resolve_cratelist]
  | cons cv rest ih =>
    intro s hs
    simp only [resolve_cratelist]
    cases hr : resolve cv s with
    | none => exact absurd hr (htot cv s hs)
    | some r =>
      cases r with
      | error e => simp
      | ok s1 =>
        exact ih s1 (Nat.lt_of_le_of_lt (uncovered_le_of_ext config (hext cv s s1 hr)) hs)

/-- C2: for every config and starting list the legacy import resolution
terminates with a result (never exhausts its fuel bound); resolution from a
fresh state visits no crate twice — the visited names are duplicate-free with
exactly one emitted path per visited crate; the mutually-importing pair a ↔ b
resolves to exactly [a-path, b-path], each once; and a nested import graph is
emitted in depth-first, import-declaration order (parent, c1, c1's import c3,
then c2). -/
theorem c2_import_resolution :
    (∀ (config : ConfigCrates) (cratelist : List CrateVars) (strict : Bool)
        (host_path : String),
      ∃ r, resolve_paths_with_imports config cratelist strict host_path = some r) ∧
    (∀ (config : ConfigCrates) (fuel : Nat) (cv : CrateVars),
      match resolve_crate_paths config fuel cv ⟨[], []⟩ with
      | some (.ok s) => s.visited.Nodup ∧ s.paths.length = s.visited.length
      | _ => True) ∧
    resolve_paths_with_imports configAB [cvA] true "" =
      some (.ok "/tmp/crates/bulker/a/default:/tmp/crates/bulker/b/default") ∧
    resolve_paths_with_imports configDfs [cvParent] true "" =
      some (.ok "/p:/c1:/c3:/c2") := by
  refine ⟨?_, ?_, by decide, by decide⟩
  · intro config cratelist strict host_path
    unfold resolve_paths_with_imports
    have hne : resolve_cratelist
        (fun cv s => resolve_crate_paths config (resolver_fuel config) cv s)
        cratelist ⟨[], []⟩ ≠ none := by
      apply resolve_cratelist_total config _ (resolver_fuel config)
        (fun cv3 s3 s4 h34 =>
          resolve_crate_paths_ext (resolver_fuel config) config cv3 s3 s4 h34)
        (fun cv3 s3 h3 => resolve_crate_paths_total (resolver_fuel config) config cv3 s3 h3)
      show uncovered config [] < resolver_fuel config
      unfold uncovered resolver_fuel
      have := List.length_filter_le (fun k => !([] : List String).contains k)
        (config_keys config)
      omega
    cases hr : resolve_cratelist
        (fun cv s => resolve_crate_paths config (resolver_fuel config) cv s)
        cratelist ⟨[], []⟩ with
    | none => exact absurd hr hne
    | some r =>
      cases r with
      | error e => exact ⟨_, Eq.refl _⟩
      | ok s => cases strict <;> exact ⟨_, Eq.refl _⟩
  · intro config fuel cv
    cases hr : resolve_crate_paths config fuel cv ⟨[], []⟩ with
    | none => trivial
    | some r =>
      cases r with
      | error e => trivial
      | ok s =>
        obtain ⟨pe, ve, hp, hvv, hn, _, hl⟩ :=
          resolve_crate_paths_ext fuel config cv ⟨[], []⟩ s hr
        simp only [List.nil_append] at hp hvv
        exact ⟨hvv ▸ hn, by rw [hp, hvv, hl]⟩

-- ── Runtime resolver: state extension and cache invariants ───────────────────

/-- Runtime state extension is reflexive. -/
theorem cv_state_ext_refl (s : CvResolveState) : CvStateExt s s :=
  ⟨[], [], by simp, by simp⟩

/-- Runtime state extension is transitive. -/
theorem cv_state_ext_trans {s1 s2 s3 : CvResolveState}
    (h1 : CvStateExt s1 s2) (h2 : CvStateExt s2 s3) : CvStateExt s1 s3 := by
  obtain ⟨oe1, ve1, ho1, hv1⟩ := h1
  obtain ⟨oe2, ve2, ho2, hv2⟩ := h2
  exact ⟨oe1 ++ oe2, ve1 ++ ve2, by rw [ho2, ho1, List.append_assoc],
    by rw [hv2, hv1, List.append_assoc]⟩

/-- The runtime import loop preserves state extension. -/
theorem resolve_cv_imports_ext
    (resolve : CrateVars → CvResolveState → Except String CvResolveState)
    (dns : String)
    (hres : ∀ cv s s2, resolve cv s = .ok s2 → CvStateExt s s2) :
    ∀ (imps : List String) (s s2 : CvResolveState),
      resolve_cv_imports resolve dns imps s = .ok s2 → CvStateExt s s2 := by
  intro imps
  induction imps with
  | nil =>
    intro s s2 h
    simp only [resolve_cv_imports, Except.ok.injEq] at h
    subst h
    exact cv_state_ext_refl s
  | cons imp rest ih =>
    intro s s2 h
    simp only [resolve_cv_imports] at h
    split at h
    · cases h
    · cases hr : resolve _ s with
      | error e => rw [hr] at h; cases h
      | ok s1 =>
        rw [hr] at h
        exact cv_state_ext_trans (hres _ s s1 hr) (ih s1 s2 h)

/-- Runtime resolver steps only extend the state. -/
theorem resolve_cv_ext :
    ∀ (gas limit : Nat) (cache : ManifestCache) (dns : String) (cv : CrateVars)
      (s s2 : CvResolveState),
      resolve_cv limit cache dns gas cv s = .ok s2 → CvStateExt s s2 := by
  intro gas
  induction gas with
  | zero => intro limit cache dns cv s s2 h; cases h
  | succ g ih =>
    intro limit cache dns cv s s2 h
    simp only [resolve_cv] at h
    split at h
    · simp only [Except.ok.injEq] at h
      subst h
      exact cv_state_ext_refl s
    · split at h
      · cases h
      · next m hm =>
        have hstep : CvStateExt s ⟨s.out ++ [cv], s.visited ++ [cv.display_name]⟩ :=
          ⟨[cv], [cv.display_name], Eq.refl _, Eq.refl _⟩
        exact cv_state_ext_trans hstep
          (resolve_cv_imports_ext _ _
            (fun cv3 s3 s4 h34 => ih limit cache dns cv3 s3 s4 h34) _ _ s2 h)

/-- The runtime import loop preserves the everything-cached invariant. -/
theorem resolve_cv_imports_cached (cache : ManifestCache)
    (resolve : CrateVars → CvResolveState → Except String CvResolveState)
    (dns : String)
    (hres : ∀ cv s s2, CachedOut cache s → resolve cv s = .ok s2 → CachedOut cache s2) :
    ∀ (imps : List String) (s s2 : CvResolveState),
      CachedOut cache s → resolve_cv_imports resolve dns imps s = .ok s2 →
      CachedOut cache s2 := by
  intro imps
  induction imps with
  | nil =>
    intro s s2 hc h
    simp only [resolve_cv_imports, Except.ok.injEq] at h
    subst h
    exact hc
  | cons imp rest ih =>
    intro s s2 hc h
    simp only [resolve_cv_imports] at h
    split at h
    · cases h
    · cases hr : resolve _ s with
      | error e => rw [hr] at h; cases h
      | ok s1 =>
        rw [hr] at h
        exact ih s1 s2 (hres _ s s1 hc hr) h

/-- Every crate the runtime resolver emits has a cached manifest: an uncached
crate is never silently added to the Resolved Crate Set. -/
theorem resolve_cv_cached :
    ∀ (gas limit : Nat) (cache : ManifestCache) (dns : String) (cv : CrateVars)
      (s s2 : CvResolveState),
      CachedOut cache s → resolve_cv limit cache dns gas cv s = .ok s2 →
      CachedOut cache s2 := by
  intro gas
  induction gas with
  | zero => intro limit cache dns cv s s2 _ h; cases h
  | succ g ih =>
    intro limit cache dns cv s s2 hc h
    simp only [resolve_cv] at h
    split at h
    · simp only [Except.ok.injEq] at h
      subst h
      exact hc
    · split at h
      · cases h
      · next m hm =>
        have hc1 : CachedOut cache ⟨s.out ++ [cv], s.visited ++ [cv.display_name]⟩ := by
          intro cv0 hcv0
          rcases List.mem_append.mp hcv0 with h0 | h0
          · exact hc cv0 h0
          · simp only [List.mem_singleton] at h0
            subst h0
            exact ⟨m, hm⟩
        exact resolve_cv_imports_cached cache _ _
          (fun cv3 s3 s4 hc3 h34 => ih limit cache dns cv3 s3 s4 hc3 h34)
          _ _ s2 hc1 h

/-- The starting-list loop preserves state extension. -/
theorem resolve_cv_start_ext
    (resolve : CrateVars → CvResolveState → Except String CvResolveState)
    (hres : ∀ cv s s2, resolve cv s = .ok s2 → CvStateExt s s2) :
    ∀ (cratelist : List CrateVars) (s s2 : CvResolveState),
      resolve_cv_start resolve cratelist s = .ok s2 → CvStateExt s s2 := by
  intro cratelist
  induction cratelist with
  | nil =>
    intro s s2 h
    simp only [resolve_cv_start, Except.ok.injEq] at h
    subst h
    exact cv_state_ext_refl s
  | cons cv rest ih =>
    intro s s2 h
    simp only [resolve_cv_start] at h
    cases hr : resolve cv s with
    | error e => rw [hr] at h; cases h
    | ok s1 =>
      rw [hr] at h
      exact cv_state_ext_trans (hres cv s s1 hr) (ih s1 s2 h)

/-- The starting-list loop preserves the everything-cached invariant. -/
theorem resolve_cv_start_cached (cache : ManifestCache)
    (resolve : CrateVars → CvResolveState → Except String CvResolveState)
    (hres : ∀ cv s s2, CachedOut cache s → resolve cv s = .ok s2 → CachedOut cache s2) :
    ∀ (cratelist : List CrateVars) (s s2 : CvResolveState),
      CachedOut cache s → resolve_cv_start resolve cratelist s = .ok s2 →
      CachedOut cache s2 := by
  intro cratelist
  induction cratelist with
  | nil =>
    intro s s2 hc h
    simp only [resolve_cv_start, Except.ok.injEq] at h
    subst h
    exact hc
  | cons cv rest ih =>
    intro s s2 hc h
    simp only [resolve_cv_start] at h
    cases hr : resolve cv s with
    | error e => rw [hr] at h; cases h
    | ok s1 =>
      rw [hr] at h
      exact ih s1 s2 (hres cv s s1 hc hr) h

/-- A successful single-start resolution emits the starting crate first. -/
theorem resolve_single_head (limit : Nat) (cache : ManifestCache) (dns : String)
    (cv : CrateVars) (L : List CrateVars)
    (h : resolve_cratevars_with_imports limit cache dns [cv] = .ok L) :
    ∃ rest, L = cv :: rest := by
  unfold resolve_cratevars_with_imports at h
  split at h
  · cases h
  · next s hs =>
    simp only [Except.ok.injEq] at h
    subst h
    simp only [resolve_cv_start] at hs
    cases hr : resolve_cv limit cache dns limit cv ⟨[], []⟩ with
    | error e => rw [hr] at hs; cases hs
    | ok s1 =>
      rw [hr] at hs
      simp only [resolve_cv_start, Except.ok.injEq] at hs
      subst hs
      cases limit with
      | zero => cases hr
      | succ g =>
        simp only [resolve_cv] at hr
        split at hr
        · next hcont => simp at hcont
        · split at hr
          · cases hr
          · next m hm =>
            obtain ⟨oe, ve, ho, _⟩ :=
              resolve_cv_imports_ext _ _
                (fun cv3 s3 s4 h34 =>
                  resolve_cv_ext g (g + 1) cache dns cv3 s3 s4 h34) _ _ _ hr
            exact ⟨oe, by rw [ho]; simp⟩

-- ── C3: the acyclic chain against the depth ceiling ──────────────────────────

/-- Splitting at a character that does not occur finds nothing. -/
theorem rsplitOnce_eq_none {c : Char} :
    ∀ l : List Char, c ∉ l → rsplitOnce c l = none := by
  intro l
  induction l with
  | nil => intro _; rfl
  | cons x xs ih =>
    intro hc
    simp only [rsplitOnce, ih (fun h => hc (List.mem_cons_of_mem _ h))]
    rw [if_neg (fun h => hc (by rw [← h]; exact List.mem_cons_self _ _))]

/-- Splitting at a character that does not occur finds nothing. -/
theorem lsplitOnce_eq_none {c : Char} :
    ∀ l : List Char, c ∉ l → lsplitOnce c l = none := by
  intro l
  induction l with
  | nil => intro _; rfl
  | cons x xs ih =>
    intro hc
    simp only [lsplitOnce]
    rw [if_neg (fun h => hc (by rw [← h]; exact List.mem_cons_self _ _))]
    simp only [ih (fun h => hc (List.mem_cons_of_mem _ h))]

/-- The chain names contain only the letter a. -/
theorem chain_name_mem {i : Nat} {c : Char}
    (h : c ∈ List.replicate (i + 1) 'a') : c = 'a' :=
  List.eq_of_mem_replicate h

/-- The length of the i-th chain name is i+1. -/
theorem chain_name_length (i : Nat) : (chain_name i).length = i + 1 := by
  show (List.replicate (i + 1) 'a').length = i + 1
  simp

/-- The display name of the i-th chain crate has length i+16. -/
theorem chain_display_length (i : Nat) :
    (chain_cv i).display_name.length = i + 16 := by
  show (((("bulker" ++ "/") ++ chain_name i) ++ ":") ++ "default").length = i + 16
  simp only [String.length_append, chain_name_length]
  show 6 + 1 + (i + 1) + 1 + 7 = i + 16
  omega

/-- Distinct chain indices have distinct display names. -/
theorem chain_display_ne {i j : Nat} (h : i ≠ j) :
    (chain_cv i).display_name ≠ (chain_cv j).display_name := by
  intro he
  have hl := congrArg String.length he
  rw [chain_display_length, chain_display_length] at hl
  omega

/-- Chain crate references are injective in the index. -/
theorem chain_cv_inj {i j : Nat} (h : chain_cv i = chain_cv j) : i = j := by
  by_contra hne
  exact chain_display_ne hne (congrArg CrateVars.display_name h)

/-- The i-th chain display name is fresh with respect to the first i. -/
theorem chain_visited_contains (i : Nat) :
    ((chain_state i).visited.contains (chain_cv i).display_name) = false := by
  apply Bool.eq_false_iff.mpr
  intro hc
  have hm : (chain_cv i).display_name ∈ (chain_state i).visited := by
    simpa using hc
  unfold chain_state at hm
  simp only [List.mem_map, List.mem_range] at hm
  obtain ⟨j, hj, he⟩ := hm
  exact chain_display_ne (by omega : j ≠ i) he

/-- Cache lookup by reference equality succeeds on a uniquely-keyed member. -/
theorem load_cached_of_mem_unique (cv : CrateVars) (m : Manifest) :
    ∀ cache : ManifestCache, (cv, m) ∈ cache →
      (∀ e ∈ cache, e.1 = cv → e = (cv, m)) →
      load_cached cache cv = some m := by
  intro cache
  induction cache with
  | nil => intro hmem _; cases hmem
  | cons e rest ih =>
    intro hmem huniq
    show (match List.find? (fun x => x.1 == cv) (e :: rest) with
      | some x => some x.2
      | none => none) = some m
    rw [List.find?_cons]
    by_cases he : (e.1 == cv) = true
    · rw [he]
      have : e = (cv, m) := huniq e (List.mem_cons_self _ _) (by simpa using he)
      rw [this]
    · rw [Bool.eq_false_iff.mpr he]
      have hmem2 : (cv, m) ∈ rest := by
        rcases List.mem_cons.mp hmem with h | h
        · exfalso
          apply he
          rw [← h]
          simp
        · exact h
      exact ih hmem2 (fun x hx h1 => huniq x (List.mem_cons_of_mem _ hx) h1)

/-- Chain cache lookup returns the i-th chain manifest. -/
theorem chain_load (n i : Nat) (hi : i < n) :
    load_cached (chain_cache n) (chain_cv i) = some (chain_manifest n i) := by
  apply load_cached_of_mem_unique
  · exact List.mem_map.mpr ⟨i, List.mem_range.mpr hi, Eq.refl _⟩
  · intro e he hfst
    rcases List.mem_map.mp he with ⟨j, _, rfl⟩
    have : j = i := chain_cv_inj hfst
    rw [this]

/-- A bare chain name parses, under default namespace bulker, to the chain
reference. -/
theorem parse_chain (k : Nat) :
    parse_registry_path (chain_name k) "bulker" = .ok (chain_cv k) := by
  have hnc : ':' ∉ List.replicate (k + 1) 'a' := fun h => by
    have := chain_name_mem h; simp at this
  have hns : '/' ∉ List.replicate (k + 1) 'a' := fun h => by
    have := chain_name_mem h; simp at this
  have htrim : trim_chars (chain_name k).data = List.replicate (k + 1) 'a' := by
    show trim_chars (List.replicate (k + 1) 'a') = _
    unfold trim_chars
    rw [List.replicate_succ, List.dropWhile_cons, if_neg (by decide),
      ← List.replicate_succ, List.reverse_replicate, List.replicate_succ,
      List.dropWhile_cons, if_neg (by decide), ← List.replicate_succ,
      List.reverse_replicate]
  have hval : validate_crate_component (String.mk (List.replicate (k + 1) 'a'))
      "crate name" = .ok () := by
    unfold validate_crate_component
    rw [if_neg (by rw [List.replicate_succ]; simp)]
    rw [if_pos (List.all_eq_true.mpr (fun x hx => by
      rw [chain_name_mem hx]; decide))]
  unfold parse_registry_path
  rw [htrim]
  simp only [rsplitOnce_eq_none _ hnc, lsplitOnce_eq_none _ hns, hval,
    show validate_crate_component "bulker" "namespace" = .ok () from by decide,
    show validate_crate_component "default" "tag" = .ok () from by decide]
  rfl

/-- State after i chain crates is the state after i-1 extended by crate i-1. -/
theorem chain_state_succ (i : Nat) :
    (⟨(chain_state i).out ++ [chain_cv i],
      (chain_state i).visited ++ [(chain_cv i).display_name]⟩ : CvResolveState) =
      chain_state (i + 1) := by
  unfold chain_state
  simp [List.range_succ]

/-- With enough remaining budget, the resolver walks the chain from crate i
to the end. -/
theorem chain_run_ok (n limit : Nat) :
    ∀ (gas i : Nat), i < n → n - i ≤ gas →
      resolve_cv limit (chain_cache n) "bulker" gas (chain_cv i) (chain_state i) =
        .ok (chain_state n) := by
  intro gas
  induction gas with
  | zero => intro i hi hle; exact absurd hle (by omega)
  | succ g ih =>
    intro i hi hle
    simp only [resolve_cv]
    rw [if_neg (by rw [chain_visited_contains i]; simp)]
    simp only [chain_load n i hi]
    rw [chain_state_succ i]
    by_cases hin : i + 1 < n
    · have himp : (chain_manifest n i).manifest.imports = [chain_name (i + 1)] := by
        simp [chain_manifest, hin]
      rw [himp]
      simp only [resolve_cv_imports]
      rw [parse_chain (i + 1)]
      simp only [ih (i + 1) hin (by omega), resolve_cv_imports]
    · have hin2 : i + 1 = n := by omega
      have himp : (chain_manifest n i).manifest.imports = [] := by
        simp [chain_manifest, hin]
      rw [himp]
      simp only [resolve_cv_imports]
      rw [hin2]

/-- With insufficient remaining budget, the resolver fails with the
depth-ceiling error at the crate it runs out on. -/
theorem chain_run_err (n limit : Nat) :
    ∀ (gas i : Nat), i < n → gas < n - i →
      resolve_cv limit (chain_cache n) "bulker" gas (chain_cv i) (chain_state i) =
        .error (depth_limit_error (chain_cv (i + gas)) limit) := by
  intro gas
  induction gas with
  | zero => intro i hi _; simp [resolve_cv]
  | succ g ih =>
    intro i hi hlt
    have hin : i + 1 < n := by omega
    simp only [resolve_cv]
    rw [if_neg (by rw [chain_visited_contains i]; simp)]
    simp only [chain_load n i hi]
    rw [chain_state_succ i]
    have himp : (chain_manifest n i).manifest.imports = [chain_name (i + 1)] := by
      simp [chain_manifest, hin]
    rw [himp]
    simp only [resolve_cv_imports]
    rw [parse_chain (i + 1)]
    simp only [ih (i + 1) hin (by omega)]
    have harith : i + 1 + g = i + (g + 1) := by omega
    rw [harith]

/-- C3 (spec-modelled): for every configured limit, resolving an acyclic
chain of imports one crate longer than the limit fails with the distinct
depth-exceeded error naming the offending crate and the limit, while a chain
exactly at the limit resolves to the full chain. -/
theorem c3_depth_ceiling :
    ∀ limit : Nat,
      resolve_cratevars_with_imports limit (chain_cache (limit + 1)) "bulker"
          [chain_cv 0] =
        .error (depth_limit_error (chain_cv limit) limit) ∧
      (1 ≤ limit →
        resolve_cratevars_with_imports limit (chain_cache limit) "bulker"
            [chain_cv 0] =
          .ok ((List.range limit).map chain_cv)) := by
  intro limit
  constructor
  · unfold resolve_cratevars_with_imports
    simp only [resolve_cv_start]
    have h := chain_run_err (limit + 1) limit limit 0 (by omega) (by omega)
    have hz : chain_state 0 = (⟨[], []⟩ : CvResolveState) := Eq.refl _
    rw [hz] at h
    simp only [h, Nat.zero_add]
  · intro hl
    unfold resolve_cratevars_with_imports
    simp only [resolve_cv_start]
    have h := chain_run_ok limit limit limit 0 (by omega) (by omega)
    have hz : chain_state 0 = (⟨[], []⟩ : CvResolveState) := Eq.refl _
    rw [hz] at h
    simp only [h, resolve_cv_start]
    rfl

/-- C3 witness: with the ceiling configured at 2, a 3-crate chain fails with
the depth error naming the third crate and the limit, and a 2-crate chain
resolves fully. -/
theorem c3_depth_ceiling_witness :
    resolve_cratevars_with_imports 2 (chain_cache 3) "bulker" [chain_cv 0] =
      .error (depth_limit_error (chain_cv 2) 2) ∧
    (1 ≤ 2 ∧
      resolve_cratevars_with_imports 2 (chain_cache 2) "bulker" [chain_cv 0] =
        .ok ((List.range 2).map chain_cv)) :=
  ⟨(c3_depth_ceiling 2).1, by omega, (c3_depth_ceiling 2).2 (by omega)⟩

-- ── C1: command lookup across resolved crates ────────────────────────────────

/-- Scanning returns the first matching command in resolution order. -/
theorem find_command_scan_first (cache : ManifestCache) (pcv : CrateVars)
    (name : String) :
    ∀ (L1 : List CrateVars) (cv2 : CrateVars) (L2 : List CrateVars)
      (m : Manifest) (pkg : PackageCommand),
      (∀ cv3 ∈ L1, ∀ m3, load_cached cache cv3 = some m3 →
        m3.manifest.commands.find? (fun c => c.command == name) = none) →
      load_cached cache cv2 = some m →
      m.manifest.commands.find? (fun c => c.command == name) = some pkg →
      find_command_scan cache pcv name (L1 ++ cv2 :: L2) = .ok pkg := by
  intro L1
  induction L1 with
  | nil =>
    intro cv2 L2 m pkg _ hload hfind
    simp only [List.nil_append, find_command_scan, hload, hfind]
  | cons cv3 rest ih =>
    intro cv2 L2 m pkg hnone hload hfind
    simp only [List.cons_append, find_command_scan]
    cases hl3 : load_cached cache cv3 with
    | none =>
      exact ih cv2 L2 m pkg (fun c hc => hnone c (List.mem_cons_of_mem _ hc)) hload hfind
    | some m3 =>
      simp only [hnone cv3 (List.mem_cons_self _ _) m3 hl3]
      exact ih cv2 L2 m pkg (fun c hc => hnone c (List.mem_cons_of_mem _ hc)) hload hfind

/-- Scanning a list with no match ends in the lookup-miss error. -/
theorem find_command_scan_miss (cache : ManifestCache) (pcv : CrateVars)
    (name : String) :
    ∀ L : List CrateVars,
      (∀ cv2 ∈ L, ∀ m, load_cached cache cv2 = some m →
        m.manifest.commands.find? (fun c => c.command == name) = none) →
      find_command_scan cache pcv name L =
        .error ("Command " ++ sq ++ name ++ sq ++ " not found in crate " ++
          sq ++ pcv.display_name ++ sq ++ " or its imports") := by
  intro L
  induction L with
  | nil => intro _; rfl
  | cons cv2 rest ih =>
    intro hnone
    simp only [find_command_scan]
    cases hl : load_cached cache cv2 with
    | none => exact ih (fun c hc => hnone c (List.mem_cons_of_mem _ hc))
    | some m =>
      simp only [hnone cv2 (List.mem_cons_self _ _) m hl]
      exact ih (fun c hc => hnone c (List.mem_cons_of_mem _ hc))

/-- C1: when resolution of the starting crate succeeds with list L, the
starting crate is scanned first, so a name declared by the starting crate
itself wins over any declaration in an import; in general the first matching
CommandSpec in resolution order is returned; and when no resolved crate's
cached manifest declares the name, lookup fails with the error naming both
the command and the starting crate. -/
theorem c1_command_lookup :
    ∀ (limit : Nat) (cache : ManifestCache) (dns : String) (cv : CrateVars)
      (name : String) (L : List CrateVars),
      resolve_cratevars_with_imports limit cache dns [cv] = .ok L →
      ((∃ rest, L = cv :: rest) ∧
       (∀ m pkg, load_cached cache cv = some m →
          m.manifest.commands.find? (fun c => c.command == name) = some pkg →
          find_command_in_crate_with_imports limit cache dns cv name = .ok pkg) ∧
       (∀ (L1 : List CrateVars) (cv2 : CrateVars) (L2 : List CrateVars)
          (m : Manifest) (pkg : PackageCommand),
          L = L1 ++ cv2 :: L2 →
          (∀ cv3 ∈ L1, ∀ m3, load_cached cache cv3 = some m3 →
            m3.manifest.commands.find? (fun c => c.command == name) = none) →
          load_cached cache cv2 = some m →
          m.manifest.commands.find? (fun c => c.command == name) = some pkg →
          find_command_in_crate_with_imports limit cache dns cv name = .ok pkg) ∧
       ((∀ cv2 ∈ L, ∀ m, load_cached cache cv2 = some m →
          m.manifest.commands.find? (fun c => c.command == name) = none) →
        find_command_in_crate_with_imports limit cache dns cv name =
          .error ("Command " ++ sq ++ name ++ sq ++ " not found in crate " ++
            sq ++ cv.display_name ++ sq ++ " or its imports"))) := by
  intro limit cache dns cv name L hres
  have hfc : find_command_in_crate_with_imports limit cache dns cv name =
      find_command_scan cache cv name L := by
    unfold find_command_in_crate_with_imports
    simp only [hres]
  obtain ⟨rest, hL⟩ := resolve_single_head limit cache dns cv L hres
  refine ⟨⟨rest, hL⟩, ?_, ?_, ?_⟩
  · intro m pkg hload hfind
    rw [hfc, hL]
    simp only [find_command_scan, hload, hfind]
  · intro L1 cv2 L2 m pkg hsplit hnone hload hfind
    rw [hfc, hsplit]
    exact find_command_scan_first cache cv name L1 cv2 L2 m pkg hnone hload hfind
  · intro hnone
    rw [hfc]
    exact find_command_scan_miss cache cv name L hnone

/-- C1 witness: on the concrete parent/child cache where both crates declare
dup, lookup from the parent resolves dup to the parent's own definition. -/
theorem c1_command_lookup_witness :
    find_command_in_crate_with_imports 25 cacheParentChild "bulker" cvParentW "dup" =
      .ok pkgParentDup :=
  (c1_command_lookup 25 cacheParentChild "bulker" cvParentW "dup"
      [cvParentW, cvChildW] (by decide)).2.1 manifestParentW pkgParentDup
    (by decide) (by decide)

-- ── C5: not-cached crates are terminal errors, never silently skipped ────────

/-- C5 (spec-modelled resolver, src lookup helpers): an uncached starting
crate makes resolution fail with the terminal error naming the crate and
suggesting how to cache it; every crate a successful resolution emits has a
cached manifest, so command lookup never silently skips a missing import;
`load_cached_manifest` fails with the same remediation error when the
manifest is absent; and an uncached transitive import (concrete fixture)
likewise aborts resolution with the error naming the import. -/
theorem c5_not_cached_errors :
    (∀ (limit : Nat) (cache : ManifestCache) (dns : String) (cv : CrateVars),
      1 ≤ limit → load_cached cache cv = none →
      resolve_cratevars_with_imports limit cache dns [cv] =
        .error (not_cached_error cv)) ∧
    (∀ (limit : Nat) (cache : ManifestCache) (dns : String)
        (cratelist L : List CrateVars),
      resolve_cratevars_with_imports limit cache dns cratelist = .ok L →
      ∀ cv ∈ L, ∃ m, load_cached cache cv = some m) ∧
    (∀ (cache : ManifestCache) (cv : CrateVars), load_cached cache cv = none →
      load_cached_manifest cache cv = .error (not_cached_error cv)) ∧
    resolve_cratevars_with_imports 25 cacheMissingImport "bulker" [cvParentW] =
      .error (not_cached_error cvMissing) := by
  refine ⟨?_, ?_, ?_, by decide⟩
  · intro limit cache dns cv hl hload
    unfold resolve_cratevars_with_imports
    simp only [resolve_cv_start]
    cases limit with
    | zero => omega
    | succ g =>
      simp only [resolve_cv]
      rw [if_neg (by simp)]
      simp only [hload]
  · intro limit cache dns cratelist L hres
    unfold resolve_cratevars_with_imports at hres
    split at hres
    · cases hres
    · next s hs =>
      simp only [Except.ok.injEq] at hres
      subst hres
      exact resolve_cv_start_cached cache _
        (fun cv3 s3 s4 hc3 h34 =>
          resolve_cv_cached limit limit cache dns cv3 s3 s4 hc3 h34)
        cratelist ⟨[], []⟩ s (fun cv0 h0 => absurd h0 (List.not_mem_nil _)) hs
  · intro cache cv hload
    unfold load_cached_manifest
    simp only [hload]

/-- C5 witness: against the empty cache, resolution of bulker/a and the
direct manifest load both fail with the remediation error naming the crate. -/
theorem c5_not_cached_errors_witness :
    load_cached ([] : ManifestCache) cvA = none ∧
    resolve_cratevars_with_imports 25 ([] : ManifestCache) "bulker" [cvA] =
      .error (not_cached_error cvA) ∧
    load_cached_manifest ([] : ManifestCache) cvA = .error (not_cached_error cvA) :=
  ⟨by decide, c5_not_cached_errors.1 25 [] "bulker" cvA (by omega) (by decide),
   c5_not_cached_errors.2.2.1 [] cvA (by decide)⟩

end Bulkers
